import Mathlib

/-!
Verification of `track_fish.py`, a single-file OpenCV script that detects
moving blobs ("fish") in a video via background subtraction and per-frame
contour filtering, writing an annotated output video.

The script is embedded shallowly: the computer-vision library calls
(background subtraction, thresholding, morphology, contour extraction)
are opaque to the script, so each successfully read frame is modelled by
the list of contours the pipeline yields for it (plus the key code that
`cv2.waitKey` would return while that frame is shown).  Everything the
script itself does — CLI source dispatch, FPS/size configuration of the
writer, the per-contour area cutoff and annotation loop, the frame loop
with its read-failure and debug-key exits, resource release, printing and
exit codes — is modelled exactly, as a trace of events.
-/

/-- A contour as delivered by `cv2.findContours`, abstracted to the two
pieces of data the script reads from it: its `cv2.contourArea` (a
nonnegative float, modelled as a rational) and its `cv2.boundingRect`. -/
structure Contour where
  area : ℚ
  x : Int
  y : Int
  w : Int
  h : Int
deriving Repr, DecidableEq

/-- One successfully read frame, abstracted to what the script's logic
consumes: the contours the CV pipeline produces for it and the key code
`cv2.waitKey(30)` returns while it is displayed (only consulted when
`--debug` is set; `-1` means no key). -/
structure FrameData where
  contours : List Contour
  key : Int
deriving Repr, DecidableEq

/-- The video capture device: whether it opened, its reported properties
(`cv2.VideoCapture.get` returns doubles, modelled as rationals), and the
stream of frames `cap.read()` yields in order.  `none` models a failed
read (`ret == False`); reading past the end of the list also fails. -/
structure Capture where
  opened : Bool
  width : ℚ
  height : ℚ
  fps : ℚ
  frames : List (Option FrameData)
deriving Repr

/-- Parsed command-line arguments of the script. -/
structure Args where
  video : String
  out : String
  minArea : Int
  debug : Bool
deriving Repr, DecidableEq

/-- Python `str.isdigit()` restricted to ASCII strings: true iff the
string is nonempty and every character is a decimal digit. -/
def pyIsDigit (s : String) : Bool :=
  !s.isEmpty && s.data.all Char.isDigit

/-- Python `int(s)` on a digit string: its decimal value. -/
def pyIntParse (s : String) : Int :=
  s.data.foldl (fun a c => a * 10 + (Int.ofNat c.toNat - 48)) 0

/-- Python `int(x)` on a float (modelled as a rational): truncation
toward zero. -/
def pyIntOfRat (q : ℚ) : Int :=
  if 0 ≤ q then ⌊q⌋ else -⌊-q⌋

/-- Python `a or b` on ints (an int is falsy iff it is `0`). -/
def pyOrInt (a b : Int) : Int :=
  if a = 0 then b else a

/-- Python `k & 0xFF` on an arbitrary-precision int. -/
def pyAnd255 (k : Int) : Int :=
  Int.emod k 256

/-- `cv2.waitKey(30) & 0xFF in [ord('q'), ord('Q')]`
(`ord('q') = 113`, `ord('Q') = 81`). -/
def quitKey (k : Int) : Bool :=
  pyAnd255 k == 113 || pyAnd255 k == 81

/-- The capture source dispatch at the top of `main`: a digit string is
turned into an integer camera index, anything else is passed through as a
file path. -/
def videoSource (video : String) : Sum Int String :=
  if pyIsDigit video then Sum.inl (pyIntParse video) else Sum.inr video

/-- An annotation drawn for one counted contour: the rectangle
`cv2.rectangle(frame, (x, y), (x+w, y+h), ...)` and the label
`"Fish {fish_count}"` placed at `(x, y-10)`. -/
structure BoxLabel where
  rect : Int × Int × Int × Int
  label : String
  labelPos : Int × Int
deriving Repr, DecidableEq

/-- The per-frame contour loop of the script:

    for cnt in contours:
        area = cv2.contourArea(cnt)
        if area < args.min_area:
            continue
        fish_count += 1
        x, y, w, h = cv2.boundingRect(cnt)
        cv2.rectangle(...); cv2.putText(f"Fish {fish_count}", (x, y-10), ...)

Given the running `fish_count` accumulator, returns the final count and
the annotations drawn, in order. -/
def annotateContours (minArea : Int) : List Contour → Nat → Nat × List BoxLabel
  | [], n => (n, [])
  | c :: rest, n =>
    if c.area < (minArea : ℚ) then
      annotateContours minArea rest n
    else
      ((annotateContours minArea rest (n + 1)).1,
        { rect := (c.x, c.y, c.x + c.w, c.y + c.h)
          label := "Fish " ++ toString (n + 1)
          labelPos := (c.x, c.y - 10) } :: (annotateContours minArea rest (n + 1)).2)

/-- One annotated output frame as written by `out.write(frame)`: the frame
number overlay, the per-contour annotations, and the fish-count overlay. -/
structure OutFrame where
  frameNum : Nat
  fishCount : Nat
  boxes : List BoxLabel
  overlayFrameText : String
  overlayCountText : String
deriving Repr, DecidableEq

/-- Build the annotated frame the script writes for the `n`-th
successfully read frame (`n` is the value of `frame_num` after its
increment). -/
def mkOut (minArea : Int) (n : Nat) (fd : FrameData) : OutFrame :=
  { frameNum := n
    fishCount := (annotateContours minArea fd.contours 0).1
    boxes := (annotateContours minArea fd.contours 0).2
    overlayFrameText := "Frame: " ++ toString n
    overlayCountText :=
      "Fish detected: " ++ toString (annotateContours minArea fd.contours 0).1 }

/-- Observable events of a run of the script, in program order. -/
inductive Event where
  | acquireCap (source : Sum Int String)
  | printError (video : String)
  | acquireWriter (path : String) (fps : Int) (width : Int) (height : Int)
  | printStart
  | write (f : OutFrame)
  | showWindows
  | keyCheck (key : Int)
  | releaseCap
  | releaseWriter
  | destroyWindows
  | printDone (path : String)
deriving Repr, DecidableEq

/-- The events of the `if args.debug:` block at the bottom of the loop
body: both `cv2.imshow` windows and the `cv2.waitKey` check. -/
def debugEvs (debug : Bool) (k : Int) : List Event :=
  if debug then [Event.showWindows, Event.keyCheck k] else []

/-- The main `while True` loop, from `ret, frame = cap.read()` to the
debug key check, given the current `frame_num`.  Returns the events of
the loop and the final `frame_num`. -/
def loop (minArea : Int) (debug : Bool) :
    List (Option FrameData) → Nat → List Event × Nat
  | [], n => ([], n)
  | none :: _, n => ([], n)
  | some fd :: rest, n =>
    if debug && quitKey fd.key then
      (Event.write (mkOut minArea (n + 1) fd) :: debugEvs debug fd.key, n + 1)
    else
      (Event.write (mkOut minArea (n + 1) fd) :: debugEvs debug fd.key ++
          (loop minArea debug rest (n + 1)).1,
        (loop minArea debug rest (n + 1)).2)

/-- The events after the loop: `cap.release(); out.release();` then
`cv2.destroyAllWindows()` when debugging, then the success print. -/
def tailEvents (debug : Bool) (outPath : String) : List Event :=
  [Event.releaseCap, Event.releaseWriter] ++
    (if debug then [Event.destroyWindows] else []) ++
    [Event.printDone outPath]

/-- Result of a run: the trace of events and the process exit code. -/
structure RunResult where
  events : List Event
  exitCode : Nat
deriving Repr, DecidableEq

/-- The whole of `main`, from the source dispatch to the final print. -/
def run (args : Args) (cap : Capture) : RunResult :=
  if cap.opened then
    { events :=
        Event.acquireCap (videoSource args.video) ::
          Event.acquireWriter args.out (pyOrInt (pyIntOfRat cap.fps) 30)
            (pyIntOfRat cap.width) (pyIntOfRat cap.height) ::
          Event.printStart ::
          (loop args.minArea args.debug cap.frames 0).1 ++
            tailEvents args.debug args.out
      exitCode := 0 }
  else
    { events := [Event.acquireCap (videoSource args.video),
                 Event.printError args.video]
      exitCode := 1 }

/-- Extract the frame written by a `write` event. -/
def writeFrameOf : Event → Option OutFrame
  | Event.write f => some f
  | _ => none

/-- The output frames of a run, in order of writing. -/
def writtenFrames (r : RunResult) : List OutFrame :=
  r.events.filterMap writeFrameOf

/-- The input frames the loop actually processes: the stream up to the
first read failure, truncated (inclusively) at a quit-key frame when the
debug display is on. -/
def takenFrames (debug : Bool) : List (Option FrameData) → List FrameData
  | [] => []
  | none :: _ => []
  | some fd :: rest =>
    if debug && quitKey fd.key then [fd] else fd :: takenFrames debug rest

/-- The annotated frames the script writes for a list of processed input
frames, numbering them from `n + 1`. -/
def expectedOut (minArea : Int) : Nat → List FrameData → List OutFrame
  | _, [] => []
  | n, fd :: rest => mkOut minArea (n + 1) fd :: expectedOut minArea (n + 1) rest

/-- The contours of a frame that pass the area cutoff. -/
def passing (minArea : Int) (cs : List Contour) : List Contour :=
  cs.filter (fun c => (minArea : ℚ) ≤ c.area)

theorem annotate_fst (m : Int) (cs : List Contour) :
    ∀ n, (annotateContours m cs n).1 = n + (passing m cs).length := by
  induction cs with
  | nil => intro n; simp [annotateContours, passing]
  | cons c rest ih =>
    intro n
    by_cases h : c.area < (m : ℚ)
    · rw [annotateContours, if_pos h]
      have hp : ¬ ((m : ℚ) ≤ c.area) := not_le.mpr h
      simp [passing, List.filter_cons, hp] at ih ⊢
      exact ih n
    · rw [annotateContours, if_neg h]
      have hp : (m : ℚ) ≤ c.area := not_lt.mp h
      simp only [passing, List.filter_cons, decide_eq_true_eq] at ih ⊢
      rw [if_pos hp]
      simp only [List.length_cons]
      rw [ih (n + 1)]
      omega

theorem annotate_boxes (m : Int) (cs : List Contour) :
    ∀ n, ((annotateContours m cs n).2).map (fun a => a.rect) =
      (passing m cs).map (fun c => (c.x, c.y, c.x + c.w, c.y + c.h)) := by
  induction cs with
  | nil => intro n; simp [annotateContours, passing]
  | cons c rest ih =>
    intro n
    by_cases h : c.area < (m : ℚ)
    · rw [annotateContours, if_pos h]
      have hp : ¬ ((m : ℚ) ≤ c.area) := not_le.mpr h
      simp [passing, List.filter_cons, hp] at ih ⊢
      exact ih n
    · rw [annotateContours, if_neg h]
      have hp : (m : ℚ) ≤ c.area := not_lt.mp h
      simp only [passing, List.filter_cons, decide_eq_true_eq] at ih ⊢
      rw [if_pos hp]
      simp only [List.map_cons]
      rw [ih (n + 1)]

theorem annotate_len (m : Int) (cs : List Contour) (n : Nat) :
    ((annotateContours m cs n).2).length = (passing m cs).length := by
  have := annotate_boxes m cs n
  have h1 := congrArg List.length this
  simpa using h1

/-- C1: a contour is counted as a fish — incrementing the per-frame count
and receiving a bounding-box annotation — exactly when its area is at
least `--min-area`: the final count equals the number of contours with
`area ≥ min_area`, and the rectangles drawn are exactly the bounding
boxes of those contours, in order; contours with area strictly below the
cutoff contribute nothing. -/
theorem c1_min_area_cutoff (m : Int) (cs : List Contour) :
    (annotateContours m cs 0).1 =
        (cs.filter (fun c => (m : ℚ) ≤ c.area)).length ∧
      ((annotateContours m cs 0).2).map (fun a => a.rect) =
        (cs.filter (fun c => (m : ℚ) ≤ c.area)).map
          (fun c => (c.x, c.y, c.x + c.w, c.y + c.h)) ∧
      ((annotateContours m cs 0).2).length =
        (cs.filter (fun c => (m : ℚ) ≤ c.area)).length := by
  refine ⟨?_, annotate_boxes m cs 0, annotate_len m cs 0⟩
  simpa using annotate_fst m cs 0

theorem filterMap_debugEvs (d : Bool) (k : Int) :
    (debugEvs d k).filterMap writeFrameOf = [] := by
  cases d <;> rfl

theorem filterMap_tailEvents (d : Bool) (p : String) :
    (tailEvents d p).filterMap writeFrameOf = [] := by
  cases d <;> rfl

theorem getLast_tailEvents (d : Bool) (p : String) :
    (tailEvents d p).getLast? = some (Event.printDone p) := by
  cases d <;> rfl

theorem loop_writes (m : Int) (d : Bool) :
    ∀ (fs : List (Option FrameData)) (n : Nat),
      ((loop m d fs n).1).filterMap writeFrameOf =
        expectedOut m n (takenFrames d fs) := by
  intro fs
  induction fs with
  | nil => intro n; rfl
  | cons hd rest ih =>
    intro n
    cases hd with
    | none => rfl
    | some fd =>
      by_cases hq : d && quitKey fd.key
      · rw [loop, if_pos hq, takenFrames, if_pos hq]
        simp [List.filterMap_cons, writeFrameOf, filterMap_debugEvs, expectedOut]
      · rw [loop, if_neg hq, takenFrames, if_neg hq]
        simp [List.filterMap_cons, List.filterMap_append, writeFrameOf,
          filterMap_debugEvs, expectedOut, ih]

theorem loop_cut (m : Int) (d : Bool) :
    ∀ (pre rest : List (Option FrameData)) (n : Nat),
      loop m d (pre ++ none :: rest) n = loop m d pre n := by
  intro pre
  induction pre with
  | nil => intro rest n; rfl
  | cons hd tl ih =>
    intro rest n
    cases hd with
    | none => rfl
    | some fd =>
      by_cases hq : d && quitKey fd.key
      · rw [List.cons_append, loop, if_pos hq, loop, if_pos hq]
      · rw [List.cons_append, loop, if_neg hq, loop, if_neg hq, ih]

theorem loop_no_key (m : Int) :
    ∀ (fs : List (Option FrameData)) (n : Nat) (k : Int),
      Event.keyCheck k ∉ (loop m false fs n).1 := by
  intro fs
  induction fs with
  | nil => intro n k; simp [loop]
  | cons hd rest ih =>
    intro n k
    cases hd with
    | none => simp [loop]
    | some fd =>
      rw [loop, if_neg (by simp)]
      intro hmem
      rw [show debugEvs false fd.key = [] from rfl] at hmem
      rcases List.mem_cons.mp hmem with h1 | h2
      · simp at h1
      · exact ih (n + 1) k (by simpa using h2)

theorem takenFrames_false_len :
    ∀ fs : List (Option FrameData),
      (takenFrames false fs).length = (fs.takeWhile Option.isSome).length := by
  intro fs
  induction fs with
  | nil => rfl
  | cons hd rest ih =>
    cases hd with
    | none => rfl
    | some fd =>
      rw [takenFrames, if_neg (by simp)]
      simp [List.takeWhile_cons, ih]

theorem expectedOut_len (m : Int) :
    ∀ (n : Nat) (l : List FrameData),
      (expectedOut m n l).length = l.length := by
  intro n l
  induction l generalizing n with
  | nil => rfl
  | cons fd rest ih => simp [expectedOut, ih]

theorem expectedOut_frameNum (m : Int) :
    ∀ (n : Nat) (l : List FrameData),
      (expectedOut m n l).map (fun f => f.frameNum) =
        List.range' (n + 1) l.length := by
  intro n l
  induction l generalizing n with
  | nil => rfl
  | cons fd rest ih => simp [expectedOut, mkOut, List.range', ih]

theorem expectedOut_count (m : Int) :
    ∀ (n : Nat) (l : List FrameData),
      (expectedOut m n l).map (fun f => f.fishCount) =
        l.map (fun fd => (passing m fd.contours).length) := by
  intro n l
  induction l generalizing n with
  | nil => rfl
  | cons fd rest ih =>
    simp only [expectedOut, mkOut, List.map_cons, ih]
    have := annotate_fst m fd.contours 0
    simp only [Nat.zero_add] at this
    rw [this]

theorem writtenFrames_run (args : Args) (cap : Capture)
    (h : cap.opened = true) :
    writtenFrames (run args cap) =
      expectedOut args.minArea 0 (takenFrames args.debug cap.frames) := by
  rw [writtenFrames, run, if_pos h]
  simp [List.filterMap_cons, List.filterMap_append, writeFrameOf,
    filterMap_tailEvents, loop_writes]

/-- Example arguments: the defaults with a file-path video source. -/
def argsEx : Args :=
  { video := "pond.mp4", out := "fish_tracked.mp4", minArea := 800, debug := false }

/-- A contour whose area is one below an 800-pixel cutoff. -/
def cSmall : Contour := { area := 799, x := 3, y := 4, w := 10, h := 20 }

/-- A contour whose area is exactly an 800-pixel cutoff. -/
def cBig : Contour := { area := 800, x := 5, y := 6, w := 7, h := 8 }

/-- An example frame with one sub-threshold and one passing contour. -/
def fdEx : FrameData := { contours := [cSmall, cBig], key := -1 }

/-- A capture that failed to open. -/
def capClosed : Capture :=
  { opened := false, width := 0, height := 0, fps := 0, frames := [] }

/-- An opened capture delivering one readable frame. -/
def capOpen : Capture :=
  { opened := true, width := 640, height := 480, fps := 25, frames := [some fdEx] }

/-- An opened capture whose FPS property reads as `0`. -/
def capFps0 : Capture :=
  { opened := true, width := 640, height := 480, fps := 0, frames := [] }

theorem run_releases (args : Args) (cap : Capture) (h : cap.opened = true) :
    Event.releaseCap ∈ (run args cap).events ∧
      Event.releaseWriter ∈ (run args cap).events := by
  rw [run, if_pos h]
  constructor <;> simp [tailEvents]

theorem getLast_shape (e1 e2 e3 : Event) (l : List Event) (d : Bool)
    (p : String) :
    (e1 :: e2 :: e3 :: l ++ tailEvents d p).getLast? =
      some (Event.printDone p) :=
  calc (e1 :: e2 :: e3 :: l ++ tailEvents d p).getLast?
      = ((e1 :: e2 :: e3 :: l) ++ tailEvents d p).getLast? := rfl
    _ = (tailEvents d p).getLast? :=
        List.getLast?_append_of_ne_nil _ (by cases d <;> simp [tailEvents])
    _ = some (Event.printDone p) := getLast_tailEvents d p

theorem run_getLast (args : Args) (cap : Capture) (h : cap.opened = true) :
    (run args cap).events.getLast? = some (Event.printDone args.out) := by
  rw [run, if_pos h]
  exact getLast_shape _ _ _ _ _ _

/-- C2 counterexample: when the source fails to open, the capture handle
has been acquired (`cv2.VideoCapture` was constructed) but the program
exits via `sys.exit(1)` without calling `cap.release()`: on this concrete
early-exit run, an acquire event occurs with no matching release. -/
theorem c2_counterexample :
    Event.acquireCap (videoSource "pond.mp4") ∈ (run argsEx capClosed).events ∧
      Event.releaseCap ∉ (run argsEx capClosed).events := by
  decide

/-- C2 (amended): on every run in which the source opens, both the
capture and the writer are released before the final print; on the
early-exit path the writer is never acquired, and the capture — though
constructed — is not explicitly released before `sys.exit(1)`. -/
theorem c2_release_amended (args : Args) (cap : Capture) :
    (cap.opened = true →
       Event.releaseCap ∈ (run args cap).events ∧
         Event.releaseWriter ∈ (run args cap).events) ∧
      (cap.opened = false →
         Event.releaseCap ∉ (run args cap).events ∧
           Event.releaseWriter ∉ (run args cap).events ∧
           ∀ p f w ht, Event.acquireWriter p f w ht ∉ (run args cap).events) := by
  constructor
  · intro h
    exact run_releases args cap h
  · intro h
    rw [run, if_neg (by simp [h])]
    refine ⟨by simp, by simp, ?_⟩
    intro p f w ht
    simp

theorem c2_witness :
    (Event.releaseCap ∈ (run argsEx capOpen).events ∧
        Event.releaseWriter ∈ (run argsEx capOpen).events) ∧
      Event.releaseCap ∉ (run argsEx capClosed).events :=
  ⟨(c2_release_amended argsEx capOpen).1 rfl,
   ((c2_release_amended argsEx capClosed).2 rfl).1⟩

/-- C3: if the source cannot be opened the program prints an error naming
the source and exits with status 1 having written no frame; otherwise it
exits with status 0 and its last output is the success message naming the
output path. -/
theorem c3_exit_behavior (args : Args) (cap : Capture) :
    (cap.opened = false →
       (run args cap).exitCode = 1 ∧
         Event.printError args.video ∈ (run args cap).events ∧
         writtenFrames (run args cap) = [] ∧
         Event.printDone args.out ∉ (run args cap).events) ∧
      (cap.opened = true →
         (run args cap).exitCode = 0 ∧
           (run args cap).events.getLast? = some (Event.printDone args.out)) := by
  constructor
  · intro h
    rw [run, if_neg (by simp [h])]
    exact ⟨rfl, by simp, rfl, by simp⟩
  · intro h
    exact ⟨by rw [run, if_pos h], run_getLast args cap h⟩

theorem c3_witness :
    ((run argsEx capClosed).exitCode = 1 ∧
        Event.printError argsEx.video ∈ (run argsEx capClosed).events) ∧
      (run argsEx capOpen).exitCode = 0 :=
  ⟨⟨((c3_exit_behavior argsEx capClosed).1 rfl).1,
    ((c3_exit_behavior argsEx capClosed).1 rfl).2.1⟩,
   ((c3_exit_behavior argsEx capOpen).2 rfl).1⟩

/-- C4: the fish count overlaid on each written frame is frame-local: the
sequence of written counts equals, frame for frame, the number of that
frame's own contours whose area passes the `--min-area` cutoff; nothing
from any earlier frame enters the count. -/
theorem c4_count_frame_local (args : Args) (cap : Capture)
    (h : cap.opened = true) :
    (writtenFrames (run args cap)).map (fun f => f.fishCount) =
      (takenFrames args.debug cap.frames).map
        (fun fd =>
          (fd.contours.filter (fun c => (args.minArea : ℚ) ≤ c.area)).length) := by
  rw [writtenFrames_run args cap h, expectedOut_count]
  rfl

theorem c4_witness :
    (writtenFrames (run argsEx capOpen)).map (fun f => f.fishCount) = [1] := by
  rw [c4_count_frame_local argsEx capOpen rfl]
  decide

/-- C5: a failed mid-stream frame read ends the loop exactly as the end
of the stream does — the run is identical to one whose input simply stops
there — and the run still releases both resources, exits with status 0,
and ends with the success message. -/
theorem c5_read_failure (args : Args) (cap : Capture)
    (h : cap.opened = true) :
    (∀ pre rest : List (Option FrameData),
       run args { cap with frames := pre ++ none :: rest } =
         run args { cap with frames := pre }) ∧
      (run args cap).exitCode = 0 ∧
      Event.releaseCap ∈ (run args cap).events ∧
      Event.releaseWriter ∈ (run args cap).events ∧
      (run args cap).events.getLast? = some (Event.printDone args.out) := by
  refine ⟨?_, by rw [run, if_pos h], (run_releases args cap h).1,
    (run_releases args cap h).2, run_getLast args cap h⟩
  intro pre rest
  rw [run, run]
  simp only [loop_cut]

theorem c5_witness :
    run argsEx { capOpen with frames := [some fdEx] ++ none :: [some fdEx] } =
        run argsEx { capOpen with frames := [some fdEx] } ∧
      (run argsEx capOpen).exitCode = 0 :=
  ⟨(c5_read_failure argsEx capOpen rfl).1 [some fdEx] [some fdEx],
   (c5_read_failure argsEx capOpen rfl).2.1⟩

/-- C6: exactly one annotated frame is written per successfully read
input frame — the written frames are precisely the per-frame annotations
of the frames the loop read, including the frame on which a debug
quit-key break is taken — and the writer is configured with the capture's
reported width and height. -/
theorem c6_one_write_per_frame (args : Args) (cap : Capture)
    (h : cap.opened = true) :
    writtenFrames (run args cap) =
        expectedOut args.minArea 0 (takenFrames args.debug cap.frames) ∧
      (writtenFrames (run args cap)).length =
        (takenFrames args.debug cap.frames).length ∧
      Event.acquireWriter args.out (pyOrInt (pyIntOfRat cap.fps) 30)
          (pyIntOfRat cap.width) (pyIntOfRat cap.height) ∈
        (run args cap).events := by
  refine ⟨writtenFrames_run args cap h, ?_, ?_⟩
  · rw [writtenFrames_run args cap h, expectedOut_len]
  · rw [run, if_pos h]
    simp

theorem c6_witness :
    (writtenFrames (run argsEx capOpen)).length =
      (takenFrames argsEx.debug capOpen.frames).length :=
  (c6_one_write_per_frame argsEx capOpen rfl).2.1

/-- C7: the frame index starts at zero and is incremented by exactly one
per successfully read frame before the frame is annotated, so the frame
numbers on the written frames are `1, 2, 3, ...` in order — strictly
monotonically increasing. -/
theorem c7_frame_num_monotonic (args : Args) (cap : Capture)
    (h : cap.opened = true) :
    (writtenFrames (run args cap)).map (fun f => f.frameNum) =
        List.range' 1 (takenFrames args.debug cap.frames).length ∧
      List.Chain' (· < ·)
        ((writtenFrames (run args cap)).map (fun f => f.frameNum)) := by
  have h1 : (writtenFrames (run args cap)).map (fun f => f.frameNum) =
      List.range' 1 (takenFrames args.debug cap.frames).length := by
    rw [writtenFrames_run args cap h, expectedOut_frameNum]
  refine ⟨h1, ?_⟩
  rw [h1]
  exact (List.pairwise_lt_range' 1 _ 1).chain'

theorem c7_witness :
    (writtenFrames (run argsEx capOpen)).map (fun f => f.frameNum) =
      List.range' 1 (takenFrames argsEx.debug capOpen.frames).length :=
  (c7_frame_num_monotonic argsEx capOpen rfl).1

/-- C8: the capture-source dispatch is total over all argument strings: a
string consisting entirely of digits (necessarily nonempty, as Python's
`str.isdigit` is false on the empty string) is interpreted as an integer
camera index, and every other string is passed through unchanged as a
file path. -/
theorem c8_video_dispatch (s : String) :
    videoSource s =
      if s ≠ "" ∧ ∀ c ∈ s.data, c.isDigit then Sum.inl (pyIntParse s)
      else Sum.inr s := by
  have hiff : pyIsDigit s = true ↔ (s ≠ "" ∧ ∀ c ∈ s.data, c.isDigit) := by
    rw [pyIsDigit, Bool.and_eq_true, Bool.not_eq_true', List.all_eq_true]
    constructor
    · rintro ⟨h1, h2⟩
      refine ⟨fun he => ?_, h2⟩
      have ht := (String.isEmpty_iff s).mpr he
      rw [h1] at ht
      exact Bool.noConfusion ht
    · rintro ⟨h1, h2⟩
      refine ⟨?_, h2⟩
      rcases hh : s.isEmpty with _ | _
      · rfl
      · exact absurd (String.isEmpty_iff s |>.mp hh) h1
  by_cases hp : s ≠ "" ∧ ∀ c ∈ s.data, c.isDigit
  · rw [if_pos hp, videoSource, if_pos (hiff.mpr hp)]
  · rw [if_neg hp, videoSource, if_neg (fun hh => hp (hiff.mp hh))]

/-- C9: the interactive key-press check happens only under `--debug`:
without it no key check event ever occurs, and the loop runs through
exactly the prefix of readable frames — it can only end at a failed
read. -/
theorem c9_no_key_without_debug (args : Args) (cap : Capture)
    (hd : args.debug = false) (h : cap.opened = true) :
    (∀ k, Event.keyCheck k ∉ (run args cap).events) ∧
      (writtenFrames (run args cap)).length =
        (cap.frames.takeWhile Option.isSome).length := by
  constructor
  · intro k
    rw [run, if_pos h]
    intro hmem
    rcases List.mem_cons.mp hmem with h1 | hmem
    · simp at h1
    rcases List.mem_cons.mp hmem with h1 | hmem
    · simp at h1
    rcases List.mem_cons.mp hmem with h1 | hmem
    · simp at h1
    rcases List.mem_append.mp hmem with h1 | h1
    · rw [hd] at h1
      exact loop_no_key args.minArea cap.frames 0 k h1
    · revert h1
      cases args.debug <;> simp [tailEvents]
  · rw [writtenFrames_run args cap h, expectedOut_len, hd,
      takenFrames_false_len]

theorem c9_witness :
    Event.keyCheck 113 ∉ (run argsEx capOpen).events ∧
      (writtenFrames (run argsEx capOpen)).length =
        (capOpen.frames.takeWhile Option.isSome).length :=
  ⟨(c9_no_key_without_debug argsEx capOpen rfl rfl).1 113,
   (c9_no_key_without_debug argsEx capOpen rfl rfl).2⟩

/-- C10: the writer is created with frame rate 30 whenever the capture's
reported FPS truncates to the integer 0, and with the truncated FPS
otherwise; for a nonnegative reported rate, truncating to 0 means the
rate is below 1. -/
theorem c10_fps_default (args : Args) (cap : Capture)
    (h : cap.opened = true) :
    Event.acquireWriter args.out
        (if pyIntOfRat cap.fps = 0 then 30 else pyIntOfRat cap.fps)
        (pyIntOfRat cap.width) (pyIntOfRat cap.height) ∈
      (run args cap).events ∧
      ∀ q : ℚ, 0 ≤ q → (pyIntOfRat q = 0 ↔ q < 1) := by
  constructor
  · rw [run, if_pos h]
    exact List.mem_cons_of_mem _ (List.mem_cons_self _ _)
  · intro q hq
    rw [pyIntOfRat, if_pos hq, Int.floor_eq_zero_iff]
    simp [Set.mem_Ico, hq]

theorem c10_witness :
    Event.acquireWriter argsEx.out
        (if pyIntOfRat capFps0.fps = 0 then 30 else pyIntOfRat capFps0.fps)
        (pyIntOfRat capFps0.width) (pyIntOfRat capFps0.height) ∈
      (run argsEx capFps0).events :=
  (c10_fps_default argsEx capFps0 rfl).1
